import Mathlib

/-!
Shallow embedding of the core of the `micro` terminal editor
(`cmd/micro/view.go`, the main event loop, and the settings store),
with theorems checking the natural-language specification against it.

Go `int` values are modelled as `Int`; Go slices/maps as lists and
association lists; Go strings as `String` or `List Char` where we need
to walk characters.  Collaborator code that is not part of the sources
(Buffer internals, Lua plugin host, tcell screen) is either modelled
from the spec (marked as such) or carried as abstract parameters.
-/

namespace Micro

/-- A buffer location (column, line), as in `Loc{x, y}`. -/
structure Loc where
  x : Int
  y : Int
deriving DecidableEq, Repr

/-- The `ViewType` struct: kind, read-only flag, scratch flag. -/
structure ViewType where
  kind : Int
  readonly : Bool
  scratch : Bool
deriving DecidableEq, Repr

def vtDefault : ViewType := ⟨0, false, false⟩
def vtHelp : ViewType := ⟨1, true, true⟩
def vtLog : ViewType := ⟨2, true, true⟩
def vtScratch : ViewType := ⟨3, false, true⟩
def vtRaw : ViewType := ⟨4, true, true⟩
def vtTerm : ViewType := ⟨5, true, true⟩

/-- A gutter message: line index (0-based), text and kind. -/
structure GutterMsg where
  lineNum : Int
  msg : String
  kind : Int
deriving DecidableEq, Repr

namespace Viewport

/-- The collaborator `Buffer` as seen by the viewport engine: the text
lines.  `Line n` returns the empty string for an out-of-range index and
`NumLines` is the number of lines, matching the Buffer interface the
view code relies on. -/
structure Buffer where
  lines : List (List Char)
deriving Repr

/-- `Buf.NumLines`. -/
def Buffer.numLines (b : Buffer) : Int :=
  (b.lines.length : Int)

/-- `Buf.Line(n)`: the line at index `n`, empty when out of range. -/
def Buffer.line (b : Buffer) (n : Int) : List Char :=
  if h : 0 ≤ n ∧ n.toNat < b.lines.length then b.lines[n.toNat] else []

/-- The viewport-relevant state of a `View`.  The fields mirror the Go
struct: `Topline`, `leftCol`, `Width`, `Height`, `x`, `lineNumOffset`,
the view type, the gutter-message table, the buffer, and the cursor
data the engine reads (`Cursor.Y`, and the value returned by the
collaborator method `Cursor.GetVisualX()`, stored as a field since its
computation lives in the Buffer/Cursor collaborator).  The settings the
engine reads from `Buf.Settings` (`softwrap`, `scrollmargin`,
`tabsize`, `ruler`) are modelled as typed fields.  The gutter-message
map `messages` is an association list keyed by section name. -/
structure View where
  topline : Int
  leftCol : Int
  width : Int
  height : Int
  x : Int
  lineNumOffset : Int
  vtype : ViewType
  cursorY : Int
  cursorVisualX : Int
  buf : Buffer
  messages : List (String × List GutterMsg)
  softwrap : Bool
  scrollmargin : Int
  tabsize : Int
  ruler : Bool
deriving Repr

/-- The character walk shared by `Bottomline` (and
`GetSoftWrapLocation`): for each character, wrap when
`screenX >= Width - lineNumOffset`, add `tabsize - 1` extra columns for
a tab, then advance one column.  Returns the final
`(screenX, screenY)`. -/
def walkChars (usable : Int) (tabsize : Int) : List Char → Int → Int → Int × Int
  | [], sx, sy => (sx, sy)
  | c :: cs, sx, sy =>
    let (x1, y1) := if sx ≥ usable then ((0 : Int), sy + 1) else (sx, sy)
    let x2 := if c = '\t' then x1 + (tabsize - 1) else x1
    walkChars usable tabsize cs (x2 + 1) y1

/-- The line loop of `Bottomline` in softwrap mode: walk at most
`fuel = Height` buffer lines starting at `lineN`, accumulating visual
rows in `screenY`, counting lines in `numLines`, and stopping once
`screenY >= Height` after a line. -/
def bottomlineGo (v : View) : Nat → Int → Int → Int → Int
  | 0, _, _, numLines => numLines
  | fuel + 1, lineN, screenY, numLines =>
    let line := v.buf.line lineN
    let y1 := (walkChars (v.width - v.lineNumOffset) v.tabsize line 0 screenY).2
    let y2 := y1 + 1
    if y2 ≥ v.height then numLines + 1
    else bottomlineGo v fuel (lineN + 1) y2 (numLines + 1)

/-- `View.Bottomline`: `Topline + Height` without softwrap, otherwise
the wrap simulation forward from `Topline`. -/
def View.bottomline (v : View) : Int :=
  if !v.softwrap then v.topline + v.height
  else bottomlineGo v v.height.toNat v.topline 0 0 + v.topline

/-- The new `Topline` computed by the two vertical `if`/`else if` blocks
of `View.Relocate`, as a function of the cursor line `c`, the
`scrollmargin` `m`, the `height` value taken once at the start of
`Relocate`, `Buf.NumLines` `nl`, and the current `Topline` `t`. -/
def relocateToplineVal (c m h nl t : Int) : Int :=
  let t1 := if c < t + m ∧ c > m - 1 then c - m else if c < t then c else t
  if c > t1 + h - 1 - m ∧ c < nl - m then c - h + 1 + m
  else if c ≥ nl - m ∧ c ≥ h then nl - h
  else t1

/-- Whether either vertical block of `View.Relocate` fired (the `ret`
accumulator restricted to the vertical blocks). -/
def relocateToplineMoved (c m h nl t : Int) : Bool :=
  let r1 := (c < t + m ∧ c > m - 1) ∨ c < t
  let t1 := if c < t + m ∧ c > m - 1 then c - m else if c < t then c else t
  if (c > t1 + h - 1 - m ∧ c < nl - m) ∨ (c ≥ nl - m ∧ c ≥ h) then true
  else decide r1

/-- The new `leftCol` computed by the two horizontal `if` blocks of
`View.Relocate` (run only without softwrap), as a function of the
cursor's visual column `cx`, `lineNumOffset` `off`, `Width` `w` and the
current `leftCol` `l`. -/
def relocateLeftColVal (cx off w l : Int) : Int :=
  let l1 := if cx < l then cx else l
  if cx + off + 1 > l1 + w then cx - w + off + 1 else l1

/-- Whether either horizontal block of `View.Relocate` fired. -/
def relocateLeftColMoved (cx off w l : Int) : Bool :=
  let l1 := if cx < l then cx else l
  if cx + off + 1 > l1 + w then true else decide (cx < l)

/-- `View.Relocate`: adjusts `Topline` (and `leftCol` when softwrap is
off) so the cursor stays inside the scroll margins; returns the updated
view and whether any adjustment branch fired.  `height` is computed
once, from `Bottomline` against the incoming `Topline`, exactly as in
the source. -/
def View.relocate (v : View) : View × Bool :=
  let height := v.bottomline - v.topline
  let t := relocateToplineVal v.cursorY v.scrollmargin height v.buf.numLines v.topline
  let r1 := relocateToplineMoved v.cursorY v.scrollmargin height v.buf.numLines v.topline
  let l :=
    if !v.softwrap then relocateLeftColVal v.cursorVisualX v.lineNumOffset v.width v.leftCol
    else v.leftCol
  let r2 :=
    if !v.softwrap then relocateLeftColMoved v.cursorVisualX v.lineNumOffset v.width v.leftCol
    else false
  ({ v with topline := t, leftCol := l }, r1 || r2)

/-- `View.ScrollUp(n)`: scroll by `n` if that stays non-negative,
otherwise by 1 if possible. -/
def View.scrollUp (v : View) (n : Int) : View :=
  if v.topline - n ≥ 0 then { v with topline := v.topline - n }
  else if v.topline > 0 then { v with topline := v.topline - 1 }
  else v

/-- `View.ScrollDown(n)`: scroll by `n` if that stays within
`Buf.NumLines`, otherwise by 1 if `Topline < NumLines - 1`. -/
def View.scrollDown (v : View) (n : Int) : View :=
  if v.topline + n ≤ v.buf.numLines then { v with topline := v.topline + n }
  else if v.topline < v.buf.numLines - 1 then { v with topline := v.topline + 1 }
  else v

/-- Append a gutter message under a section key of the message table,
with Go map semantics: update the entry if the key is present,
otherwise add a new entry. -/
def alistAppend : List (String × List GutterMsg) → String → GutterMsg →
    List (String × List GutterMsg)
  | [], sect, m => [(sect, [m])]
  | (k, ms) :: rest, sect, m =>
    if k = sect then (k, ms ++ [m]) :: rest
    else (k, ms) :: alistAppend rest sect m

/-- `View.GutterMessage(section, lineN, msg, kind)`: decrements `lineN`,
and if any existing gutter message in any section already has that line
index, returns without change; otherwise appends the message to the
given section's list. -/
def View.gutterMessage (v : View) (sect : String) (lineN : Int) (msg : String)
    (kind : Int) : View :=
  let l := lineN - 1
  let gutterMsg : GutterMsg := ⟨l, msg, kind⟩
  if v.messages.any fun p => p.2.any fun g => g.lineNum = l then v
  else { v with messages := alistAppend v.messages sect gutterMsg }

/-- The opening check of `DisplayView`: a nonzero `leftCol` under
softwrap is reset to zero. -/
def displayLeftColReset (v : View) : View :=
  if v.softwrap ∧ v.leftCol ≠ 0 then { v with leftCol := 0 } else v

/-- `DisplayView` on log/raw views always follows the cursor by
relocating. -/
def displayFollowCursor (v : View) : View :=
  if v.vtype = vtLog ∨ v.vtype = vtRaw then (v.relocate).1 else v

/-- `DisplayView` recomputes `lineNumOffset` from the width of the
largest line number (when the `ruler` is on), the presence of gutter
messages, and the split divider of a non-leftmost pane. -/
def displayLineNumOffset (v : View) : View :=
  let maxLineNumLength : Int := ((toString v.buf.numLines).length : Int)
  let off1 : Int := if v.ruler then maxLineNumLength + 1 else 0
  let hasGutterMessages := v.messages.any fun p => !p.2.isEmpty
  let off2 := if hasGutterMessages then off1 + 2 else off1
  let off3 := if v.x ≠ 0 then off2 + 1 else off2
  { v with lineNumOffset := off3 }

/-- The effect of `View.DisplayView` on the view state: terminal views
return immediately; otherwise a nonzero `leftCol` under softwrap is
reset to zero, log/raw views are relocated, and `lineNumOffset` is
recomputed.  The rest of `DisplayView` draws to the screen: it
temporarily switches the active cursor while painting selections and
restores it to the Buffer's primary cursor, leaving the fields
modelled here unchanged. -/
def View.displayViewState (v : View) : View :=
  if v.vtype = vtTerm then v
  else displayLineNumOffset (displayFollowCursor (displayLeftColReset v))

end Viewport

namespace Dispatch

/-- A cursor of the Buffer's cursor set: its location and whether it
currently has a selection (`HasSelection`). -/
structure ECursor where
  loc : Loc
  hasSel : Bool
deriving DecidableEq, Repr

/-- A record of one content mutation requested of the Buffer. -/
inductive BufMutation
  | insert (pos : Loc) (text : String)
  | replace (start stop : Loc) (text : String)
  | deleteSelection (cursorIdx : Nat)
deriving DecidableEq, Repr

/-- The Buffer collaborator as the dispatch code sees it: the cursor
set (index 0 is the primary cursor `Buf.Cursor`, and a cursor's `Num`
is its index), `curCursor` (the index of the active cursor), and a log
of the content mutations (`Insert`, `Replace`, selection deletion)
requested of the Buffer.  Modelled from the spec: the Buffer "owns
text and a set of cursor positions; exposes insert/replace/selection
primitives"; its internal text storage is out of scope here, so
content mutations are recorded as a log rather than applied to a text
structure, and the Buffer's own relocation of cursors after an edit is
collaborator behaviour outside this model. -/
structure EBuffer where
  cursors : List ECursor
  curCursor : Nat
  mutations : List BufMutation
deriving DecidableEq, Repr

/-- An element of the recorded macro: a bound action (by name) or an
inserted rune. -/
inductive MacroElem
  | action (name : String)
  | rune (r : Char)
deriving DecidableEq, Repr

/-- The dispatch-relevant editor state: the view's type and modes, the
buffer, and the process-wide macro-recording globals
(`recordingMacro`, `curMacro`) folded in as fields.  Collaborator
hooks whose outcome branches the control flow — whether the
autocompleter consumes a key (`Completer.HandleEvent`) and whether the
`Paste` pre-action plugin hook allows the paste — are carried as
oracle fields.  The source dispatches bound actions to `CurView()`;
the session is modelled with this single view current. -/
structure EView where
  vtype : ViewType
  isOverwriteMode : Bool
  mouseReleased : Bool
  doubleClick : Bool
  tripleClick : Bool
  freshClip : Bool
  completerTakesKey : Bool
  preActionPasteOk : Bool
  buf : EBuffer
  recordingMacro : Bool
  curMacro : List MacroElem

/-- Whether `pat` occurs at the start of `s`. -/
def listHasPrefix : List Char → List Char → Bool
  | _, [] => true
  | [], _ :: _ => false
  | a :: as, b :: bs => a = b && listHasPrefix as bs

/-- Whether `pat` occurs anywhere inside `s`. -/
def listContainsSub : List Char → List Char → Bool
  | [], pat => pat.isEmpty
  | s@(_ :: rest), pat => listHasPrefix s pat || listContainsSub rest pat

/-- `strings.Contains(s, pat)`. -/
def strContains (s pat : String) : Bool :=
  listContainsSub s.data pat.data

/-- The fixed list of mutating-action name fragments that are skipped
in read-only views (`readonlyBindingsList`). -/
def readonlyBindingsList : List String :=
  ["Delete", "Insert", "Backspace", "Cut", "Play", "Paste", "Move", "Add",
    "DuplicateLine", "Macro"]

/-- A bound editor action: its function name (as reported by
`ShortFuncName`) and its behaviour on the editor state; an action
returns whether it requests a viewport relocation. -/
structure Action where
  name : String
  act : EView → EView × Bool

/-- The macro-capture step after an invoked action: unless the action
is one of the macro toggles (`ToggleMacro`/`PlayMacro`, excluded to
avoid nested capture), and the process is recording, append the action
to the macro buffer. -/
def macroAppend (a : Action) (v1 : EView) : EView :=
  if a.name ≠ "ToggleMacro" ∧ a.name ≠ "PlayMacro" then
    if v1.recordingMacro then
      { v1 with curMacro := v1.curMacro ++ [MacroElem.action a.name] }
    else v1
  else v1

/-- `View.ExecuteActions`: run the bound action list; in a read-only
current view, an action whose name contains one of the
`readonlyBindingsList` fragments is skipped; an invoked action is
followed by the macro-capture step.  Returns the state, the
accumulated relocate flag (`relocate = action(..) || relocate` over
the invoked actions), and — as an observation of the run — the names
of the invoked actions in order. -/
def executeActions : List Action → EView → EView × Bool × List String
  | [], v => (v, false, [])
  | a :: rest, v =>
    if v.vtype.readonly && (readonlyBindingsList.any fun p => strContains a.name p) then
      executeActions rest v
    else
      let res := executeActions rest (macroAppend a (a.act v).1)
      (res.1, (a.act v).2 || res.2.1, a.name :: res.2.2)

/-- Make the cursor with index (`Num`) `i` the active cursor
(`View.SetCursor`); the pointed-to cursor of a live cursor set is
never nil, so the source's nil guard cannot fire here. -/
def setCursorIdx (i : Nat) (v : EView) : EView :=
  { v with buf := { v.buf with curCursor := i } }

/-- `View.SetCursor(&v.Buf.Cursor)`: reset the active cursor to the
Buffer's primary cursor (index 0). -/
def setCursorPrimary (v : EView) : EView :=
  setCursorIdx 0 v

/-- Modelled from the spec: `Buffer.MergeCursors` — "cursors are
merged (duplicate/overlapping cursors collapse to one)".  Collapses
cursors with equal locations, keeping the first of each. -/
def mergeCursorsGo (seen : List Loc) : List ECursor → List ECursor
  | [] => []
  | c :: rest =>
    if c.loc ∈ seen then mergeCursorsGo seen rest
    else c :: mergeCursorsGo (c.loc :: seen) rest

/-- Modelled from the spec: see `mergeCursorsGo`. -/
def mergeCursors (cs : List ECursor) : List ECursor :=
  mergeCursorsGo [] cs

/-- `v.Buf.MergeCursors()` on the state. -/
def mergeBufCursors (v : EView) : EView :=
  { v with buf := { v.buf with cursors := mergeCursors v.buf.cursors } }

/-- The per-cursor fan-out of the raw-escape and key-binding paths:
for each cursor of the set (the slice is snapshotted by `range` at
entry), make it the active cursor, then run the action list.  The
`relocate` variable is reset to `false` and re-assigned from
`ExecuteActions` on every iteration, exactly as in the source, so the
final value is the last cursor's result (or the incoming value when
there is no cursor). -/
def fanOutKeyGo (actions : List Action) : List Nat → EView → Bool → EView × Bool
  | [], v, rel => (v, rel)
  | i :: is, v, _ =>
    let v1 := setCursorIdx i v
    let res := executeActions actions v1
    fanOutKeyGo actions is res.1 (res.2.1 || false)

/-- Fan out an action list over the cursor set, then reset the active
cursor to the primary cursor and merge cursors — the shared tail of
the raw-escape and key-binding dispatch paths. -/
def fanOutKey (actions : List Action) (v : EView) (rel : Bool) : EView × Bool :=
  let res := fanOutKeyGo actions (List.range v.buf.cursors.length) v rel
  (mergeBufCursors (setCursorPrimary res.1), res.2)

/-- The per-cursor fan-out of the mouse-binding path: as `fanOutKeyGo`
but the `relocate` flag accumulates (`relocate = ExecuteActions ||
relocate`) instead of being reset per cursor. -/
def fanOutMouseGo (actions : List Action) : List Nat → EView → Bool → EView × Bool
  | [], v, rel => (v, rel)
  | i :: is, v, rel =>
    let v1 := setCursorIdx i v
    let res := executeActions actions v1
    fanOutMouseGo actions is res.1 (res.2.1 || rel)

/-- A binding key: the chord fields of the Go `Key` struct. -/
structure BKey where
  keyCode : Int
  r : Char
  modifiers : Int
  buttons : Int
  escape : String
deriving DecidableEq, Repr

/-- The key-binding table `bindings`. -/
abbrev Bindings := List (BKey × List Action)

/-- A `mouseBindings` handler: applied to the view and the mouse
event. -/
structure MAction where
  act : EView → Int × Int × Int × Int → EView

/-- The mouse-binding table `mouseBindings`. -/
abbrev MouseBindings := List (BKey × List MAction)

/-- The `tcell.KeyRune` key code (a distinguished constant; its
numeric value is immaterial to the dispatch logic). -/
def keyRune : Int := 256

/-- The `tcell.ButtonNone` button mask. -/
def buttonNone : Int := 0

/-- A tcell event as dispatched to `View.HandleEvent`: key, raw escape
sequence, paste, mouse (buttons, modifiers, position), or any other
event kind (which falls through the dispatch switch). -/
inductive TEvent
  | key (keyCode : Int) (r : Char) (modifiers : Int)
  | raw (escSeq : String)
  | paste (text : String)
  | mouse (buttons : Int) (modifiers : Int) (x y : Int)
  | other
deriving DecidableEq, Repr

/-- Whether a binding matches a raw escape event: `keyCode == -1` and
the escape sequences agree. -/
def rawBindingMatch (esc : String) (b : BKey × List Action) : Bool :=
  b.1.keyCode == -1 && b.1.escape == esc

/-- Whether a binding matches a key event: the key codes agree, for
`KeyRune` the runes agree, and the modifiers agree (a rune mismatch
`continue`s, a modifier mismatch just falls through). -/
def keyBindingMatch (code : Int) (r : Char) (mods : Int) (b : BKey × List Action) : Bool :=
  code == b.1.keyCode && (code != keyRune || r == b.1.r) && mods == b.1.modifiers

/-- Whether a binding matches a mouse event's button chord. -/
def mouseBindingMatch (btn mods : Int) (b : BKey) : Bool :=
  btn == b.buttons && mods == b.modifiers

/-- The rune-insert path: for each cursor, make it active, delete a
pending selection, then `Replace` (overwrite mode) or `Insert` the
rune at the cursor; while recording a macro the rune is appended to
the macro buffer.  (`Completer.Process` and the `onRune` plugin hook
touch no modelled state.) -/
def runeInsertGo (r : Char) : List Nat → EView → EView
  | [], v => v
  | i :: is, v =>
    let v1 := setCursorIdx i v
    let c := v1.buf.cursors.getD i ⟨⟨0, 0⟩, false⟩
    let v2 :=
      if c.hasSel then
        { v1 with buf := { v1.buf with
            mutations := v1.buf.mutations ++ [BufMutation.deleteSelection i],
            cursors := v1.buf.cursors.set i { c with hasSel := false } } }
      else v1
    let cloc := (v2.buf.cursors.getD i ⟨⟨0, 0⟩, false⟩).loc
    let v3 :=
      if v2.isOverwriteMode then
        { v2 with buf := { v2.buf with mutations := v2.buf.mutations ++
            [BufMutation.replace cloc { cloc with x := cloc.x + 1 } (String.mk [r])] } }
      else
        { v2 with buf := { v2.buf with mutations := v2.buf.mutations ++
            [BufMutation.insert cloc (String.mk [r])] } }
    let v4 :=
      if v3.recordingMacro then { v3 with curMacro := v3.curMacro ++ [MacroElem.rune r] }
      else v3
    runeInsertGo r is v4

/-- The paste path body (`View.paste`, once per cursor): delete a
pending selection, then `Insert` the clipboard at the cursor and clear
`freshClip`.  The `smartpaste` massaging only rewrites the inserted
text as a pure function of the buffer content, and the status message
touches no modelled state. -/
def pasteGo (clip : String) : List Nat → EView → EView
  | [], v => v
  | i :: is, v =>
    let v1 := setCursorIdx i v
    let c := v1.buf.cursors.getD i ⟨⟨0, 0⟩, false⟩
    let v2 :=
      if c.hasSel then
        { v1 with buf := { v1.buf with
            mutations := v1.buf.mutations ++ [BufMutation.deleteSelection i],
            cursors := v1.buf.cursors.set i { c with hasSel := false } } }
      else v1
    let cloc := (v2.buf.cursors.getD i ⟨⟨0, 0⟩, false⟩).loc
    let v3 := { v2 with
      buf := { v2.buf with mutations := v2.buf.mutations ++ [BufMutation.insert cloc clip] },
      freshClip := false }
    pasteGo clip is v3

/-- The `bindings` loop of the mouse path: every binding whose chord
matches is fanned out over the cursors (relocate accumulating), each
match ending with the active cursor reset to primary and a cursor
merge; unlike the key paths there is no `break`, so all matches run. -/
def mouseKeyBindingsGo (btn mods : Int) : Bindings → EView → Bool → EView × Bool
  | [], v, rel => (v, rel)
  | (k, actions) :: rest, v, rel =>
    if mouseBindingMatch btn mods k then
      let res := fanOutMouseGo actions (List.range v.buf.cursors.length) v rel
      mouseKeyBindingsGo btn mods rest (mergeBufCursors (setCursorPrimary res.1)) res.2
    else mouseKeyBindingsGo btn mods rest v rel

/-- The `mouseBindings` loop of the mouse path: every matching
handler is applied to the view and the event in order. -/
def mouseActionsGo (e : Int × Int × Int × Int) : List MAction → EView → EView
  | [], v => v
  | a :: rest, v => mouseActionsGo e rest (a.act v e)

/-- Run the `mouseBindings` table against a mouse event. -/
def mouseTableGo (btn mods : Int) (e : Int × Int × Int × Int) :
    MouseBindings → EView → EView
  | [], v => v
  | (k, actions) :: rest, v =>
    if mouseBindingMatch btn mods k then
      mouseTableGo btn mods e rest (mouseActionsGo e actions v)
    else mouseTableGo btn mods e rest v

/-- The `ButtonNone` arm of the mouse path: on a just-released mouse
(and no double/triple click pending) the active cursor is moved to the
click location and its selection end is set; this reads the viewport
coordinate engine (`MoveToMouseClick` / `GetSoftWrapLocation`,
embedded in the `Viewport` namespace), so the resolved buffer location
is supplied by the `resolveClick` oracle.  Selection-end bookkeeping
and the clipboard copy touch no modelled field; `mouseReleased` is
set. -/
def buttonNoneArm (resolveClick : EView → Int → Int → Loc) (x y : Int) (v : EView) : EView :=
  if !v.mouseReleased then
    let v1 :=
      if !v.doubleClick && !v.tripleClick then
        let nloc := resolveClick v x y
        let c := v.buf.cursors.getD v.buf.curCursor ⟨⟨0, 0⟩, false⟩
        { v with buf := { v.buf with
            cursors := v.buf.cursors.set v.buf.curCursor { c with loc := nloc } } }
      else v
    { v1 with mouseReleased := true }
  else v

/-- `View.HandleEvent`: terminal views delegate the event to the
embedded terminal (collaborator, no modelled state); raw views log a
description of the event into the buffer (quitting on Ctrl-Q is
session teardown, not modelled); every other view dispatches per the
event type.  `Buf.CheckModTime` is collaborator I/O.  Returns the
state and the final value of the `relocate` flag — when it is true the
source runs `v.Relocate()` twice, which only adjusts the viewport
scroll offsets (see `Viewport.View.relocate`) and touches none of the
state modelled here. -/
def handleEvent (bindings : Bindings) (mouseBindings : MouseBindings)
    (resolveClick : EView → Int → Int → Loc) (ev : TEvent) (v : EView) : EView × Bool :=
  if v.vtype = vtTerm then (v, false)
  else if v.vtype = vtRaw then
    let cloc := (v.buf.cursors.getD v.buf.curCursor ⟨⟨0, 0⟩, false⟩).loc
    ({ v with buf := { v.buf with mutations := v.buf.mutations ++
        [BufMutation.insert cloc "EventDesc", BufMutation.insert cloc "EscSeq"] } }, false)
  else
    match ev with
    | .raw esc =>
      match bindings.find? (rawBindingMatch esc) with
      | some (_, actions) => fanOutKey actions v true
      | none => (v, true)
    | .key code r mods =>
      if v.completerTakesKey then (v, true)
      else
        match bindings.find? (keyBindingMatch code r mods) with
        | some (_, actions) => fanOutKey actions v true
        | none =>
          if code = keyRune then
            if !v.vtype.readonly then
              (setCursorPrimary (runeInsertGo r (List.range v.buf.cursors.length) v), true)
            else (v, true)
          else (v, true)
    | .paste txt =>
      if v.vtype.readonly = false then
        if !v.preActionPasteOk then (v, true)
        else (setCursorPrimary (pasteGo txt (List.range v.buf.cursors.length) v), true)
      else (v, true)
    | .mouse btn mods x y =>
      let res := mouseKeyBindingsGo btn mods bindings v false
      let v2 := mouseTableGo btn mods (btn, mods, x, y) mouseBindings res.1
      let v3 := if btn = buttonNone then buttonNoneArm resolveClick x y v2 else v2
      (v3, res.2)
    | .other => (v, true)

end Dispatch

namespace Sched

/-- An input event as the drain loop of `main` classifies it: its
identity, whether it is a mouse-wheel event over some view (handled
directly in the mouse `switch` arm, setting `didAction`), and whether
the tab bar consumes it (`TabbarHandleMouseEvent` returns true — per
its in-source comment, "If the tab was changed it returns true").
`TabbarHandleMouseEvent` itself lives outside the sources, so its
outcome is carried as an event attribute. -/
structure SEvent where
  id : Nat
  wheelOverView : Bool
  tabClick : Bool
deriving DecidableEq, Repr

/-- One observable step of the main loop: a full-screen redraw
(`RedrawAll`), the dispatch of one input event to the view/search
handlers, or a tab switch consumed by the tab bar (which `break`s the
drain without dispatching the event further). -/
inductive LoopAtom
  | redraw
  | dispatch (e : SEvent)
  | tabSwitch (e : SEvent)
deriving DecidableEq, Repr

/-- The control points of the main loop in `main`: `top` (about to
redraw and enter the channel select), `select` (redraw done, blocked
on the select), and `drainPoll` (just processed an event inside the
inner `for event != nil` loop, about to poll the input channel with a
`default` case, i.e. without blocking). -/
inductive LoopPhase
  | top
  | select
  | drainPoll
deriving DecidableEq, Repr

/-- The scheduler state: the queue of immediately-available input
events on the `events` channel, the trace of observable steps so far,
the control point, and the process-wide `searching` flag.  Job
completions, autosave ticks and terminal signals arrive on other
channels and are not modelled in this queue. -/
structure LoopState where
  queue : List SEvent
  trace : List LoopAtom
  phase : LoopPhase
  searching : Bool
deriving DecidableEq, Repr

/-- The body of the inner `for event != nil` loop of `main`, for a
received event `e` with `rest` still queued: a wheel event over a view
(only when not searching) is handled directly (`didAction`) and the
drain continues; otherwise, if `TabbarHandleMouseEvent` consumes the
event, the `break` ends the drain — control falls back to the top of
the outer loop, where `RedrawAll` runs before the rest of the queue is
received; otherwise, while searching, the event goes to
`HandleSearchEvent` — modelled from the spec and the in-source
comment ("we need to redraw every time there is a new event in the
search bar"): that handler, which is not among the sources, performs
its own redraw per event, and whether it also ends search mode is its
own behaviour, held constant here; otherwise the event goes to
`CurView().HandleEvent`, which performs no redraw, and the drain
continues.  (The resize re-layout and the click arms that only copy
the infobar message or pick the current view fall through to the same
dispatch, performing no redraw.) -/
def drainBody (s : LoopState) (e : SEvent) (rest : List SEvent) : LoopState :=
  if !s.searching && e.wheelOverView then
    { s with queue := rest, trace := s.trace ++ [.dispatch e], phase := .drainPoll }
  else if e.tabClick then
    { s with queue := rest, trace := s.trace ++ [.tabSwitch e], phase := .top }
  else if s.searching then
    { s with queue := rest, trace := s.trace ++ [.dispatch e, .redraw], phase := .drainPoll }
  else
    { s with queue := rest, trace := s.trace ++ [.dispatch e], phase := .drainPoll }

/-- One transition of the main loop, following the Go control flow: at
`top`, `RedrawAll()` runs and the loop enters the select; at `select`,
the first queued input event is received and the inner loop's body
runs on it; at `drainPoll`, either the next immediately-available
event is received and processed the same way, or, when none is
queued, `event = nil` ends the inner loop and control falls back to
the top of the outer loop.  A `select` with no available event blocks
(modelled as a self-loop). -/
def loopStep (s : LoopState) : LoopState :=
  match s.phase, s.queue with
  | .top, _ => { s with trace := s.trace ++ [.redraw], phase := .select }
  | .select, [] => s
  | .select, e :: rest => drainBody s e rest
  | .drainPoll, [] => { s with phase := .top }
  | .drainPoll, e :: rest => drainBody s e rest

/-- Run `n` transitions of the main loop. -/
def loopRun : Nat → LoopState → LoopState
  | 0, s => s
  | n + 1, s => loopRun n (loopStep s)

end Sched

namespace Config

/-- A settings value: the closed set of types stored in the settings
maps (`bool`, `float64` — always integral, set via `strconv.Atoi` —,
`string`, `[]string`). -/
inductive SettingVal
  | b (x : Bool)
  | num (x : Int)
  | str (s : String)
  | strList (l : List String)
deriving DecidableEq, Repr

/-- A settings map (`map[string]interface{}` restricted to setting
values), as an association list. -/
abbrev SettingsMap := List (String × SettingVal)

/-- Go map assignment `m[k] = v`: update the entry if the key is
present, otherwise add a new entry. -/
def insertS : SettingsMap → String → SettingVal → SettingsMap
  | [], k, v => [(k, v)]
  | (k', v') :: rest, k, v =>
    if k' = k then (k', v) :: rest
    else (k', v') :: insertS rest k v

/-- Go map lookup `m[k]`. -/
def lookupS (m : SettingsMap) (k : String) : Option SettingVal :=
  m.lookup k

/-- Modelled from the spec: the helper parsing a boolean option value
from its string form (`ParseBool`, a utility not among the source
files).  It accepts the usual spellings; anything else errors.  Only
the success/failure split matters to the claims about `SetOption`. -/
def parseBool (s : String) : Option Bool :=
  if s = "on" ∨ s = "true" ∨ s = "1" then some true
  else if s = "off" ∨ s = "false" ∨ s = "0" then some false
  else none

/-- Digit-string accumulator for `parseInt`. -/
def parseDigitsGo : List Char → Nat → Option Nat
  | [], acc => some acc
  | c :: cs, acc =>
    if c.isDigit then parseDigitsGo cs (acc * 10 + (c.toNat - '0'.toNat))
    else none

/-- A non-empty digit string as a number. -/
def parseDigits : List Char → Option Nat
  | [] => none
  | ds => parseDigitsGo ds 0

/-- `strconv.Atoi`: an optional sign followed by one or more
digits. -/
def parseInt (s : String) : Option Int :=
  match s.data with
  | '-' :: ds => (parseDigits ds).map fun n => -(n : Int)
  | '+' :: ds => (parseDigits ds).map fun n => (n : Int)
  | ds => (parseDigits ds).map fun n => (n : Int)

/-- `validatePositiveValue`: numeric and at least 1. -/
def validatePositiveValue (opt : String) (value : SettingVal) : Option String :=
  match value with
  | .num x => if x < 1 then some (opt ++ " must be greater than 0") else none
  | _ => some ("Expected numeric type for " ++ opt)

/-- `validateNonNegativeValue`: numeric and non-negative. -/
def validateNonNegativeValue (opt : String) (value : SettingVal) : Option String :=
  match value with
  | .num x => if x < 0 then some (opt ++ " must be non-negative") else none
  | _ => some ("Expected numeric type for " ++ opt)

/-- `validateColorscheme`: a string naming an available colorscheme;
the available names (`ColorschemeExists`, a runtime-files collaborator)
are a parameter. -/
def validateColorscheme (validSchemes : List String) (value : SettingVal) : Option String :=
  match value with
  | .str cs => if cs ∈ validSchemes then none else some (cs ++ " is not a valid colorscheme")
  | _ => some "Expected string type for colorscheme"

/-- `validateLineEnding`: the string "unix" or "dos". -/
def validateLineEnding (value : SettingVal) : Option String :=
  match value with
  | .str e => if e = "unix" ∨ e = "dos" then none else some "File format must be either 'unix' or 'dos'"
  | _ => some "Expected string type for file format"

/-- `optionIsValid`: dispatch to the validator registered for the
option (the `optionValidators` table), if any. -/
def optionIsValid (validSchemes : List String) (opt : String) (value : SettingVal) :
    Option String :=
  if opt = "tabsize" then validatePositiveValue opt value
  else if opt = "scrollmargin" ∨ opt = "scrollspeed" ∨ opt = "colorcolumn" then
    validateNonNegativeValue opt value
  else if opt = "colorscheme" then validateColorscheme validSchemes value
  else if opt = "fileformat" then validateLineEnding value
  else none

/-- The `reflect`-kind dispatch shared by `SetOption` and
`SetLocalOption`: booleans via `ParseBool`, strings taken as-is,
`float64` numbers via `strconv.Atoi`; any other stored type is
unsupported. -/
def parseNative (cur : SettingVal) (value : String) : Except String SettingVal :=
  match cur with
  | .b _ =>
    match parseBool value with
    | some bv => .ok (.b bv)
    | none => .error "Invalid value"
  | .str _ => .ok (.str value)
  | .num _ =>
    match parseInt value with
    | some n => .ok (.num n)
    | none => .error "Invalid value"
  | .strList _ => .error "Option has unsupported value type"

/-- `SetLocalOption` restricted to its effect on one buffer's settings
map: unknown option or failed parse/validation errors out without a
change; on success the value is stored.  The `fastdirty` hashing, the
`statusline` height toggle and the colorscheme/syntax refreshes touch
no settings map. -/
def setLocalOption (validSchemes : List String) (bufSettings : SettingsMap)
    (opt value : String) : Except String SettingsMap :=
  match lookupS bufSettings opt with
  | none => .error "Invalid option"
  | some cur =>
    match parseNative cur value with
    | .error e => .error e
    | .ok nv =>
      match optionIsValid validSchemes opt nv with
      | some e => .error e
      | none => .ok (insertS bufSettings opt nv)

/-- The settings-file environment `WriteSettings` probes: whether the
config directory and `settings.json` exist, whether reading the file
succeeds, whether its content is the literal "null", and whether it
parses as JSON5. -/
structure FileEnv where
  configDirExists : Bool
  fileExists : Bool
  readOk : Bool
  contentIsNull : Bool
  parseOk : Bool
deriving DecidableEq, Repr

/-- The settings-relevant process state: the global settings map, each
open view's buffer-local settings (the session is modelled with the
view at `curView` current), the `invalidSettings` flag, a count of
settings-file writes performed, and the transient messages shown to
the user. -/
structure ConfigState where
  globalSettings : SettingsMap
  viewSettings : List SettingsMap
  curView : Nat
  invalidSettings : Bool
  writes : Nat
  messages : List String
deriving DecidableEq, Repr

/-- The current view's buffer settings (`CurView().Buf.Settings`). -/
def curViewSettings (st : ConfigState) : SettingsMap :=
  st.viewSettings.getD st.curView []

/-- `WriteSettings`: suppressed entirely while `invalidSettings` is set
(returns nil without writing); otherwise, when the config directory
exists, the existing non-"null" file is re-read and merged — a read
error aborts with that error before any write, a parse error during
the merge reports and sets `invalidSettings` but still writes this
once — and the merged settings are written out (recorded as a write
count).  Returns the state and the returned error. -/
def writeSettingsR (env : FileEnv) (st : ConfigState) : ConfigState × Option String :=
  if st.invalidSettings then (st, none)
  else if env.configDirExists then
    if env.fileExists ∧ ¬env.contentIsNull then
      if ¬env.readOk then (st, some "read error")
      else
        let st1 := if ¬env.parseOk then { st with invalidSettings := true } else st
        ({ st1 with writes := st1.writes + 1 }, none)
    else ({ st with writes := st.writes + 1 }, none)
  else (st, none)

/-- `SetOption`: an option missing from both the global map and the
current buffer's map errors with "Invalid option"; an option that is
local-only is delegated to `SetLocalOption` with the returned error
discarded, exactly as in the source; otherwise the value is parsed
against the global entry's type and validated — any failure errors out
with the state untouched — then stored globally, and, when the option
also exists in the current buffer's settings, propagated to every open
view via `SetLocalOption` (each delegate error again discarded).  The
colorscheme/infobar/keymenu/mouse side effects act on the screen and
layout, not on any settings map.  Returns the new state and the
returned error. -/
def setOption (validSchemes : List String) (st : ConfigState) (opt value : String) :
    ConfigState × Option String :=
  match lookupS st.globalSettings opt with
  | none =>
    match lookupS (curViewSettings st) opt with
    | none => (st, some "Invalid option")
    | some _ =>
      match setLocalOption validSchemes (curViewSettings st) opt value with
      | .ok m' => ({ st with viewSettings := st.viewSettings.set st.curView m' }, none)
      | .error _ => (st, none)
  | some cur =>
    match parseNative cur value with
    | .error e => (st, some e)
    | .ok nv =>
      match optionIsValid validSchemes opt nv with
      | some e => (st, some e)
      | none =>
        let st1 := { st with globalSettings := insertS st.globalSettings opt nv }
        if st1.viewSettings.length ≠ 0 ∧ (lookupS (curViewSettings st1) opt).isSome then
          ({ st1 with viewSettings := st1.viewSettings.map fun mset =>
              match setLocalOption validSchemes mset opt value with
              | .ok m' => m'
              | .error _ => mset }, none)
        else (st1, none)

/-- `SetOptionAndSettings`: set the option; on error show the error as
a transient message and return without touching the settings file; on
success write the settings file, showing any write error. -/
def setOptionAndSettings (validSchemes : List String) (env : FileEnv) (st : ConfigState)
    (opt value : String) : ConfigState :=
  match setOption validSchemes st opt value with
  | (st1, some e) => { st1 with messages := st1.messages ++ [e] }
  | (st1, none) =>
    match writeSettingsR env st1 with
    | (st2, some e) => { st2 with messages := st2.messages ++ ["Error writing to settings.json: " ++ e] }
    | (st2, none) => st2

/-- The outcome-relevant inputs to `InitGlobalSettings`: whether
`settings.json` exists, whether reading it succeeds, whether its
content starts with "null", whether it parses as JSON5, and the
parsed top-level non-map entries (the map-valued entries are local
overrides, skipped by the global pass).  A failed read yields no
content, so `startsNull` holds only if the read succeeded. -/
structure SettingsFileInput where
  fileExists : Bool
  readOk : Bool
  startsNull : Bool
  parseOk : Bool
  parsed : SettingsMap
deriving Repr

/-- `DefaultGlobalSettings`. -/
def defaultGlobalSettings : SettingsMap :=
  [("autoindent", .b true), ("autosave", .b false), ("basename", .b false),
   ("colorcolumn", .num 0), ("colorscheme", .str "default"), ("cursorline", .b true),
   ("eofnewline", .b false), ("fastdirty", .b true), ("fileformat", .str "unix"),
   ("hidehelp", .b false), ("ignorecase", .b false), ("indentchar", .str " "),
   ("infobar", .b true), ("keepautoindent", .b false), ("keymenu", .b false),
   ("matchbrace", .b false), ("matchbraceleft", .b false), ("mouse", .b true),
   ("pluginchannels", .strList ["https://raw.githubusercontent.com/micro-editor/plugin-channel/master/channel.json"]),
   ("pluginrepos", .strList []), ("rmtrailingws", .b false), ("ruler", .b true),
   ("savecursor", .b false), ("savehistory", .b true), ("saveundo", .b false),
   ("scrollbar", .b false), ("scrollmargin", .num 3), ("scrollspeed", .num 2),
   ("softwrap", .b false), ("smartpaste", .b true), ("splitbottom", .b true),
   ("splitright", .b true), ("statusline", .b true), ("sucmd", .str "sudo"),
   ("syntax", .b true), ("tabmovement", .b false), ("tabsize", .num 4),
   ("tabstospaces", .b false), ("termtitle", .b false), ("useprimary", .b true),
   ("autocomplete", .b false)]

/-- Overlay parsed entries over the defaults (`globalSettings`
construction). -/
def overlayS (base : SettingsMap) : SettingsMap → SettingsMap
  | [] => base
  | (k, v) :: rest => overlayS (insertS base k v) rest

/-- `InitGlobalSettings`: reset `invalidSettings`; when the file exists
and does not start with "null", a read error reports and sets
`invalidSettings` and returns at once, a parse error reports and sets
`invalidSettings` but execution continues; the global map becomes the
defaults overlaid with the parsed flat entries; the file is written
back when it was missing or was the "null" placeholder. -/
def initGlobalSettings (env : FileEnv) (inp : SettingsFileInput) (st : ConfigState) :
    ConfigState :=
  let st0 := { st with invalidSettings := false }
  if inp.fileExists then
    if ¬inp.startsNull then
      if ¬inp.readOk then { st0 with invalidSettings := true }
      else
        let st1 := if ¬inp.parseOk then { st0 with invalidSettings := true } else st0
        { st1 with globalSettings :=
            overlayS defaultGlobalSettings (if inp.parseOk then inp.parsed else []) }
    else
      let st1 := { st0 with globalSettings := defaultGlobalSettings }
      (writeSettingsR env st1).1
  else
    let st1 := { st0 with globalSettings := defaultGlobalSettings }
    (writeSettingsR env st1).1

end Config

/-! Concrete states used to instantiate the theorems below. -/

/-- A 100-line buffer in a 20-row pane, margin 3, cursor on the last
line (the spec's scenario). -/
def c3wit : Viewport.View :=
  { topline := 0, leftCol := 0, width := 80, height := 20, x := 0, lineNumOffset := 0,
    vtype := vtDefault, cursorY := 99, cursorVisualX := 0,
    buf := ⟨List.replicate 100 []⟩,
    messages := [], softwrap := false, scrollmargin := 3, tabsize := 4, ruler := false }

/-- A softwrap view whose first line (12 characters) wraps three times
in a 5-column pane of height 4, with the cursor on the last of 10
lines. -/
def c4cex : Viewport.View :=
  { topline := 0, leftCol := 0, width := 5, height := 4, x := 0, lineNumOffset := 0,
    vtype := vtDefault, cursorY := 9, cursorVisualX := 0,
    buf := ⟨List.replicate 12 'a' :: List.replicate 9 []⟩,
    messages := [], softwrap := true, scrollmargin := 1, tabsize := 4, ruler := false }

/-- A view without softwrap, for the idempotence witness. -/
def c4wit : Viewport.View :=
  { topline := 0, leftCol := 0, width := 10, height := 4, x := 0, lineNumOffset := 0,
    vtype := vtDefault, cursorY := 7, cursorVisualX := 30,
    buf := ⟨List.replicate 9 []⟩,
    messages := [], softwrap := false, scrollmargin := 1, tabsize := 4, ruler := false }

/-- A softwrap view with a stale nonzero `leftCol`. -/
def c5cex : Viewport.View :=
  { topline := 0, leftCol := 5, width := 10, height := 2, x := 0, lineNumOffset := 0,
    vtype := vtDefault, cursorY := 0, cursorVisualX := 0,
    buf := ⟨[[]]⟩,
    messages := [], softwrap := true, scrollmargin := 0, tabsize := 4, ruler := false }

/-- A softwrap default view with a stale nonzero `leftCol`, for the
`DisplayView` witness. -/
def c5wit : Viewport.View :=
  { topline := 0, leftCol := 7, width := 10, height := 2, x := 0, lineNumOffset := 0,
    vtype := vtDefault, cursorY := 0, cursorVisualX := 0,
    buf := ⟨[[]]⟩,
    messages := [], softwrap := true, scrollmargin := 0, tabsize := 4, ruler := false }

/-- A mid-buffer view for the scroll-clamping witness. -/
def c9wit : Viewport.View :=
  { topline := 5, leftCol := 0, width := 10, height := 4, x := 0, lineNumOffset := 0,
    vtype := vtDefault, cursorY := 5, cursorVisualX := 0,
    buf := ⟨List.replicate 10 []⟩,
    messages := [], softwrap := false, scrollmargin := 0, tabsize := 4, ruler := false }

/-- A read-only (help) view with one cursor, for the read-only gating
witness. -/
def c1st : Dispatch.EView :=
  { vtype := vtHelp, isOverwriteMode := false, mouseReleased := true,
    doubleClick := false, tripleClick := false, freshClip := true,
    completerTakesKey := false, preActionPasteOk := true,
    buf := { cursors := [⟨⟨0, 0⟩, false⟩], curCursor := 0, mutations := [] },
    recordingMacro := false, curMacro := [] }

/-- A bound action list mixing a navigation action with a mutating
one, as bindings do. -/
def c1actions : List Dispatch.Action :=
  [⟨"CursorUp", fun s => (s, true)⟩,
   ⟨"InsertNewline", fun s =>
     ({ s with buf := { s.buf with mutations :=
         s.buf.mutations ++ [Dispatch.BufMutation.insert ⟨0, 0⟩ "\n"] } }, true)⟩]

/-- A writable default view with two duplicate cursors at the origin. -/
def c2cex : Dispatch.EView :=
  { vtype := vtDefault, isOverwriteMode := false, mouseReleased := true,
    doubleClick := false, tripleClick := false, freshClip := true,
    completerTakesKey := false, preActionPasteOk := true,
    buf := { cursors := [⟨⟨0, 0⟩, false⟩, ⟨⟨0, 0⟩, false⟩], curCursor := 0, mutations := [] },
    recordingMacro := false, curMacro := [] }

/-- A writable default view with two duplicate cursors, for the
cursor-reset/merge witness. -/
def c2wit : Dispatch.EView :=
  { vtype := vtDefault, isOverwriteMode := false, mouseReleased := true,
    doubleClick := false, tripleClick := false, freshClip := true,
    completerTakesKey := false, preActionPasteOk := true,
    buf := { cursors := [⟨⟨0, 0⟩, false⟩, ⟨⟨0, 0⟩, false⟩], curCursor := 0, mutations := [] },
    recordingMacro := false, curMacro := [] }

/-- A key binding whose action moves the active-cursor index and adds
a cursor, exercising the reset and the merge. -/
def c2bind : Dispatch.Bindings :=
  [(⟨107, 'k', 0, 0, ""⟩,
    [⟨"SpawnMultiCursor", fun s =>
      ({ s with buf := { s.buf with
          cursors := s.buf.cursors ++ [⟨⟨2, 3⟩, false⟩], curCursor := 1 } }, true)⟩])]

/-- A burst of 50 queued ordinary input events (no tab-bar clicks, no
wheel events). -/
def c6q : List Sched.SEvent :=
  (List.range 50).map fun i => ⟨i, false, false⟩

/-- A batch of three immediately-available events whose middle event
is a mouse click the tab bar consumes. -/
def c6cexq : List Sched.SEvent :=
  [⟨0, false, false⟩, ⟨1, false, true⟩, ⟨2, false, false⟩]

/-- A small settings state (one open view), for the set-option
witness. -/
def c7wit : Config.ConfigState :=
  { globalSettings := [("tabsize", .num 4), ("softwrap", .b false)],
    viewSettings := [[("tabsize", .num 4)]], curView := 0,
    invalidSettings := false, writes := 0, messages := [] }

/-- A healthy settings-file environment. -/
def c7env : Config.FileEnv :=
  { configDirExists := true, fileExists := true, readOk := true,
    contentIsNull := false, parseOk := true }

/-- A settings file that exists and reads but fails to parse. -/
def c8inp : Config.SettingsFileInput :=
  { fileExists := true, readOk := true, startsNull := false, parseOk := false,
    parsed := [] }

/-- The file environment matching `c8inp`. -/
def c8env : Config.FileEnv :=
  { configDirExists := true, fileExists := true, readOk := true,
    contentIsNull := false, parseOk := false }

/-- A fresh settings state. -/
def c8st : Config.ConfigState :=
  { globalSettings := [], viewSettings := [], curView := 0,
    invalidSettings := false, writes := 0, messages := [] }

/-- A settings state with the `invalidSettings` flag set. -/
def c8stInvalid : Config.ConfigState :=
  { globalSettings := [("tabsize", .num 4)], viewSettings := [], curView := 0,
    invalidSettings := true, writes := 0, messages := [] }

/-- A view with one gutter message on line index 4, for the
gutter-message witness. -/
def c10wit : Viewport.View :=
  { topline := 0, leftCol := 0, width := 10, height := 4, x := 0, lineNumOffset := 0,
    vtype := vtDefault, cursorY := 0, cursorVisualX := 0,
    buf := ⟨List.replicate 10 []⟩,
    messages := [("lint", [⟨4, "unused", 1⟩])],
    softwrap := false, scrollmargin := 0, tabsize := 4, ruler := false }

end Micro

namespace Micro

/-! Theorems: general lemmas about the embedding, then one theorem per
claim with its witness or counterexample. -/

namespace Viewport

theorem bottomline_nowrap (v : View) (h : v.softwrap = false) :
    v.bottomline = v.topline + v.height := by
  simp [View.bottomline, h]

theorem relocateToplineVal_idem (c m h nl t : Int) (hm : 0 ≤ m) :
    relocateToplineVal c m h nl (relocateToplineVal c m h nl t)
      = relocateToplineVal c m h nl t := by
  simp only [relocateToplineVal]
  split_ifs <;> omega

theorem relocateLeftColVal_idem (cx off w l : Int) :
    relocateLeftColVal cx off w (relocateLeftColVal cx off w l)
      = relocateLeftColVal cx off w l := by
  simp only [relocateLeftColVal]
  split_ifs <;> omega

theorem alistAppend_lookup_self (ms : List (String × List GutterMsg)) (sect : String)
    (g : GutterMsg) :
    (alistAppend ms sect g).lookup sect = some (((ms.lookup sect).getD []) ++ [g]) := by
  induction ms with
  | nil => simp [alistAppend, List.lookup]
  | cons p rest ih =>
    obtain ⟨k, msgs⟩ := p
    by_cases hk : k = sect
    · subst hk
      simp [alistAppend, List.lookup]
    · have hb : (sect == k) = false := by
        simp [beq_iff_eq]
        exact fun he => hk he.symm
      simp [alistAppend, hk, List.lookup, hb, ih]

theorem alistAppend_lookup_other (ms : List (String × List GutterMsg)) (sect : String)
    (g : GutterMsg) (s : String) (h : s ≠ sect) :
    (alistAppend ms sect g).lookup s = ms.lookup s := by
  have hb : (s == sect) = false := by simp [beq_iff_eq, h]
  induction ms with
  | nil => simp [alistAppend, List.lookup, hb]
  | cons p rest ih =>
    obtain ⟨k, msgs⟩ := p
    by_cases hk : k = sect
    · subst hk
      simp [alistAppend, List.lookup, hb]
    · simp [alistAppend, hk, List.lookup, ih]

theorem relocate_softwrap_leftCol (v : View) (hsw : v.softwrap = true) :
    ((v.relocate).1).leftCol = v.leftCol := by
  simp [View.relocate, hsw]

/-- C3: with softwrap off, for any view over a 100-line buffer with
visible height 20, scrollmargin 3 and the cursor on line 99 (0-based),
`Relocate` sets `Topline` to exactly 80 = NumLines - height, whatever
the starting `Topline`. -/
theorem C3_relocate_last_line (v : View) (hsw : v.softwrap = false)
    (hN : v.buf.numLines = 100) (hh : v.height = 20) (hm : v.scrollmargin = 3)
    (hc : v.cursorY = 99) :
    ((v.relocate).1).topline = 80 := by
  have hb := bottomline_nowrap v hsw
  simp only [View.relocate, hb, hsw, hN, hh, hm, hc, relocateToplineVal,
    add_sub_cancel_left, Bool.not_false, if_true]
  split_ifs <;> omega

/-- C3 witness: the spec scenario instantiated on a concrete view. -/
theorem C3_witness : ((c3wit.relocate).1).topline = 80 :=
  C3_relocate_last_line c3wit rfl (by decide) rfl rfl rfl

/-- C4 counterexample: `Relocate` is not idempotent on the code as
claimed.  On this softwrap view (first buffer line wraps over three
visual rows), the first `Relocate` sets `Topline` to 8 and a second
`Relocate`, with no intervening state change, adjusts it again to 6 —
exactly the under-correction the source works around by calling
`Relocate` twice after events. -/
theorem C4_counterexample :
    c4cex.softwrap = true ∧
    ((c4cex.relocate).1).topline = 8 ∧
    (((c4cex.relocate).1).relocate).1.topline = 6 := by
  decide

/-- C4 (amended): with softwrap disabled (and the validated
non-negative scrollmargin), `Relocate` is idempotent — a second call
with no intervening state change leaves both `Topline` and `leftCol`
unchanged. -/
theorem C4_relocate_idempotent_nowrap (v : View) (hsw : v.softwrap = false)
    (hm : 0 ≤ v.scrollmargin) :
    (((v.relocate).1).relocate).1.topline = ((v.relocate).1).topline ∧
    (((v.relocate).1).relocate).1.leftCol = ((v.relocate).1).leftCol := by
  have h1 : (v.relocate).1 = { v with
      topline := relocateToplineVal v.cursorY v.scrollmargin v.height v.buf.numLines v.topline,
      leftCol := relocateLeftColVal v.cursorVisualX v.lineNumOffset v.width v.leftCol } := by
    simp [View.relocate, bottomline_nowrap v hsw, hsw, add_sub_cancel_left]
  rw [h1]
  constructor
  · simp [View.relocate, View.bottomline, hsw, add_sub_cancel_left, Buffer.numLines]
    exact relocateToplineVal_idem _ _ _ _ _ hm
  · simp [View.relocate, View.bottomline, hsw, add_sub_cancel_left]
    exact relocateLeftColVal_idem _ _ _ _

/-- C4 witness: idempotence on a concrete non-softwrap view. -/
theorem C4_witness :
    c4wit.softwrap = false ∧ 0 ≤ c4wit.scrollmargin ∧
    ((((c4wit.relocate).1).relocate).1.topline = ((c4wit.relocate).1).topline ∧
      (((c4wit.relocate).1).relocate).1.leftCol = ((c4wit.relocate).1).leftCol) :=
  ⟨rfl, by decide, C4_relocate_idempotent_nowrap c4wit rfl (by decide)⟩

/-- C5 counterexample: `Relocate` in softwrap mode does not force
`leftCol` to zero — on this softwrap view with a stale `leftCol` of 5,
`Relocate` returns with `leftCol` still 5, against the claim that
after any `Relocate` in softwrap mode `leftCol` equals 0. -/
theorem C5_counterexample :
    c5cex.softwrap = true ∧ ((c5cex.relocate).1).leftCol = 5 := by
  decide

/-- C5 (amended): under softwrap, `Relocate` never adjusts `leftCol`
(it is preserved, in particular a zero `leftCol` stays zero), and
drawing resets any nonzero `leftCol`: after `DisplayView` on any
non-terminal view in softwrap mode, `leftCol` equals 0. -/
theorem C5_softwrap_leftcol (v : View) (hsw : v.softwrap = true) :
    ((v.relocate).1).leftCol = v.leftCol ∧
    (v.vtype ≠ vtTerm → (v.displayViewState).leftCol = 0) := by
  refine ⟨relocate_softwrap_leftCol v hsw, fun hvt => ?_⟩
  rw [View.displayViewState, if_neg hvt]
  have h1 : (displayLeftColReset v).leftCol = 0 ∧ (displayLeftColReset v).softwrap = true := by
    by_cases hl : v.leftCol = 0 <;> simp [displayLeftColReset, hsw, hl]
  have h2 : (displayFollowCursor (displayLeftColReset v)).leftCol = 0 := by
    rw [displayFollowCursor]
    split_ifs with h
    · rw [relocate_softwrap_leftCol _ h1.2]
      exact h1.1
    · exact h1.1
  simpa [displayLineNumOffset] using h2

/-- C5 witness: a concrete softwrap default view with a stale
`leftCol` of 7 has `leftCol` 0 after `DisplayView`. -/
theorem C5_witness :
    c5wit.softwrap = true ∧ (c5wit.displayViewState).leftCol = 0 :=
  ⟨rfl, (C5_softwrap_leftcol c5wit rfl).2 (by decide)⟩

/-- C9: for a view with non-negative `Topline` and `n ≥ 0`,
`ScrollUp(n)` never makes `Topline` negative (subtracting `n` when
that stays non-negative, else stepping by 1 when positive, else
leaving it), and `ScrollDown(n)` never moves `Topline` beyond
`Buf.NumLines` (adding `n` when that stays within `NumLines`, else
stepping by 1 only when `Topline < NumLines - 1`, else leaving it). -/
theorem C9_scroll_clamp (v : View) (n : Int) (ht : 0 ≤ v.topline) (hn : 0 ≤ n) :
    (0 ≤ (v.scrollUp n).topline ∧
      (v.topline - n ≥ 0 → (v.scrollUp n).topline = v.topline - n) ∧
      (v.topline - n < 0 → v.topline > 0 → (v.scrollUp n).topline = v.topline - 1) ∧
      (v.topline - n < 0 → ¬v.topline > 0 → (v.scrollUp n).topline = v.topline)) ∧
    (((v.scrollDown n).topline ≤ v.buf.numLines ∨ (v.scrollDown n).topline = v.topline) ∧
      (v.topline + n ≤ v.buf.numLines → (v.scrollDown n).topline = v.topline + n) ∧
      (v.topline + n > v.buf.numLines → v.topline < v.buf.numLines - 1 →
        (v.scrollDown n).topline = v.topline + 1) ∧
      (v.topline + n > v.buf.numLines → ¬v.topline < v.buf.numLines - 1 →
        (v.scrollDown n).topline = v.topline)) := by
  unfold View.scrollUp View.scrollDown
  split_ifs <;> simp_all <;> omega

/-- C9 witness: the clamping at a concrete view. -/
theorem C9_witness :
    (c9wit.scrollUp 3).topline = 2 ∧ (c9wit.scrollDown 3).topline = 8 :=
  ⟨(C9_scroll_clamp c9wit 3 (by decide) (by decide)).1.2.1 (by decide),
    (C9_scroll_clamp c9wit 3 (by decide) (by decide)).2.2.1 (by decide)⟩

/-- C10: `GutterMessage(section, lineN, msg, kind)` stores the message
under line index `lineN - 1`, and is a complete no-op whenever any
existing gutter message in any section already has that line index;
otherwise the message is appended to the given section's list and
every other section is untouched. -/
theorem C10_gutter_message (v : View) (sect : String) (lineN : Int) (m : String)
    (k : Int) :
    ((∃ p ∈ v.messages, ∃ g ∈ p.2, g.lineNum = lineN - 1) →
      v.gutterMessage sect lineN m k = v) ∧
    ((¬∃ p ∈ v.messages, ∃ g ∈ p.2, g.lineNum = lineN - 1) →
      ((v.gutterMessage sect lineN m k).messages.lookup sect
          = some (((v.messages.lookup sect).getD []) ++ [⟨lineN - 1, m, k⟩]) ∧
        ∀ s, s ≠ sect →
          (v.gutterMessage sect lineN m k).messages.lookup s = v.messages.lookup s)) := by
  constructor
  · intro hex
    have hc : (v.messages.any fun p => p.2.any fun g => g.lineNum = lineN - 1) = true := by
      simp only [List.any_eq_true, decide_eq_true_eq]
      exact hex
    simp [View.gutterMessage, hc]
  · intro hex
    have hc : (v.messages.any fun p => p.2.any fun g => g.lineNum = lineN - 1) = false := by
      rw [Bool.eq_false_iff]
      intro hany
      apply hex
      simpa only [List.any_eq_true, decide_eq_true_eq] using hany
    refine ⟨?_, fun s hs => ?_⟩
    · simp [View.gutterMessage, hc, alistAppend_lookup_self]
    · simp [View.gutterMessage, hc, alistAppend_lookup_other _ _ _ _ hs]

/-- C10 witness: with an existing message on line index 4, adding one
for user line 5 is a no-op; with no message on line index 8, adding
one for user line 9 appends it under its section. -/
theorem C10_witness :
    c10wit.gutterMessage "make" 5 "err" 2 = c10wit ∧
    (c10wit.gutterMessage "make" 9 "err" 2).messages.lookup "make"
      = some [⟨8, "err", 2⟩] := by
  refine ⟨(C10_gutter_message c10wit "make" 5 "err" 2).1 (by decide), ?_⟩
  have h := ((C10_gutter_message c10wit "make" 9 "err" 2).2 (by decide)).1
  simpa using h

end Viewport

namespace Dispatch

theorem macroAppend_vtype (a : Action) (v : EView) :
    (macroAppend a v).vtype = v.vtype := by
  unfold macroAppend
  split_ifs <;> rfl

theorem macroAppend_buf (a : Action) (v : EView) :
    (macroAppend a v).buf = v.buf := by
  unfold macroAppend
  split_ifs <;> rfl

theorem executeActions_readonly (actions : List Action) :
    ∀ v : EView, v.vtype.readonly = true →
    (∀ a ∈ actions, ∀ s : EView, ((a.act s).1).vtype = s.vtype) →
    (∀ a ∈ actions,
      (readonlyBindingsList.any fun p => strContains a.name p) = false →
      ∀ s : EView, ((a.act s).1).buf = s.buf) →
    (executeActions actions v).2.2
        = (actions.filter fun a =>
            !(readonlyBindingsList.any fun p => strContains a.name p)).map Action.name ∧
    ((executeActions actions v).1).buf = v.buf := by
  induction actions with
  | nil => intro v _ _ _; simp [executeActions]
  | cons a rest ih =>
    intro v hro hvt hnm
    have hvt' : ∀ b ∈ rest, ∀ s : EView, ((b.act s).1).vtype = s.vtype :=
      fun b hb => hvt b (List.mem_cons_of_mem _ hb)
    have hnm' : ∀ b ∈ rest,
        (readonlyBindingsList.any fun p => strContains b.name p) = false →
        ∀ s : EView, ((b.act s).1).buf = s.buf :=
      fun b hb => hnm b (List.mem_cons_of_mem _ hb)
    by_cases hmatch : (readonlyBindingsList.any fun p => strContains a.name p) = true
    · simp only [executeActions, hro, hmatch, Bool.and_self, if_true]
      rw [List.filter_cons_of_neg (by simp [hmatch])]
      exact ih v hro hvt' hnm'
    · simp only [Bool.not_eq_true] at hmatch
      have hro2 : (macroAppend a (a.act v).1).vtype.readonly = true := by
        rw [macroAppend_vtype, hvt a (List.mem_cons_self _ _) v, hro]
      obtain ⟨iht, ihb⟩ := ih (macroAppend a (a.act v).1) hro2 hvt' hnm'
      simp only [executeActions, hro, hmatch, Bool.and_false, Bool.false_eq_true,
        if_false]
      constructor
      · rw [List.filter_cons_of_pos (by simp [hmatch])]
        simp [iht]
      · rw [ihb, macroAppend_buf, hnm a (List.mem_cons_self _ _) hmatch v]

/-- C1: in a read-only view, `ExecuteActions` invokes exactly the
actions whose names avoid every fragment of the fixed mutating-name
list (Delete, Insert, Backspace, Cut, Play, Paste, Move, Add,
DuplicateLine, Macro) — the invoked-name trace equals the filtered
list, in order, so every matching action is silently skipped and every
non-matching action in the same list is still invoked — and, given
that the non-matching (non-mutating) actions leave the Buffer
unchanged and no action flips the view type, the Buffer after the
whole dispatch equals the Buffer before: zero Buffer mutations. -/
theorem C1_readonly_gating (actions : List Action) (v : EView)
    (hro : v.vtype.readonly = true)
    (hvt : ∀ a ∈ actions, ∀ s : EView, ((a.act s).1).vtype = s.vtype)
    (hnm : ∀ a ∈ actions,
      (readonlyBindingsList.any fun p => strContains a.name p) = false →
      ∀ s : EView, ((a.act s).1).buf = s.buf) :
    (executeActions actions v).2.2
        = (actions.filter fun a =>
            !(readonlyBindingsList.any fun p => strContains a.name p)).map Action.name ∧
    ((executeActions actions v).1).buf = v.buf :=
  executeActions_readonly actions v hro hvt hnm

/-- C1 witness: in a read-only help view, a bound list of a cursor
motion and an insertion invokes only the motion and leaves the Buffer
untouched. -/
theorem C1_witness :
    (executeActions Micro.c1actions Micro.c1st).2.2 = ["CursorUp"] ∧
    ((executeActions Micro.c1actions Micro.c1st).1).buf = Micro.c1st.buf := by
  have h := C1_readonly_gating Micro.c1actions Micro.c1st rfl
    (by
      intro a ha s
      simp only [Micro.c1actions, List.mem_cons, List.mem_singleton] at ha
      rcases ha with rfl | rfl | h
      · rfl
      · rfl
      · cases h)
    (by
      intro a ha hfalse s
      simp only [Micro.c1actions, List.mem_cons, List.mem_singleton] at ha
      rcases ha with rfl | rfl | h
      · rfl
      · exact absurd hfalse (by decide)
      · cases h)
  refine ⟨?_, h.2⟩
  rw [h.1]
  decide

theorem mergeCursorsGo_locs (cs : List ECursor) :
    ∀ seen : List Loc,
      (((mergeCursorsGo seen cs).map fun c => c.loc).Nodup ∧
        ∀ l ∈ (mergeCursorsGo seen cs).map fun c => c.loc, l ∉ seen) := by
  induction cs with
  | nil => intro seen; simp [mergeCursorsGo]
  | cons c rest ih =>
    intro seen
    by_cases hc : c.loc ∈ seen
    · simpa [mergeCursorsGo, hc] using ih seen
    · obtain ⟨h1, h2⟩ := ih (c.loc :: seen)
      simp only [mergeCursorsGo, hc, if_false]
      constructor
      · rw [List.map_cons, List.nodup_cons]
        refine ⟨fun hmem => ?_, h1⟩
        exact (h2 _ hmem) (List.mem_cons_self _ _)
      · intro l hl
        rw [List.map_cons, List.mem_cons] at hl
        rcases hl with rfl | hl
        · exact hc
        · exact fun hls => (h2 _ hl) (List.mem_cons_of_mem _ hls)

theorem mergeCursors_locs_nodup (cs : List ECursor) :
    ((mergeCursors cs).map fun c => c.loc).Nodup :=
  (mergeCursorsGo_locs cs []).1

theorem fanOutKey_curCursor (actions : List Action) (v : EView) (rel : Bool) :
    ((fanOutKey actions v rel).1).buf.curCursor = 0 := by
  simp [fanOutKey, mergeBufCursors, setCursorPrimary, setCursorIdx]

theorem fanOutKey_locs_nodup (actions : List Action) (v : EView) (rel : Bool) :
    ((((fanOutKey actions v rel).1).buf.cursors).map fun c => c.loc).Nodup := by
  simp only [fanOutKey, mergeBufCursors, setCursorPrimary, setCursorIdx]
  exact mergeCursors_locs_nodup _

theorem mouseKeyBindingsGo_curCursor (btn mods : Int) (bs : Bindings) :
    ∀ (v : EView) (rel : Bool), v.buf.curCursor = 0 →
      ((mouseKeyBindingsGo btn mods bs v rel).1).buf.curCursor = 0 := by
  induction bs with
  | nil => intro v rel h0; simpa [mouseKeyBindingsGo] using h0
  | cons b rest ih =>
    intro v rel h0
    obtain ⟨k, acts⟩ := b
    by_cases hmk : mouseBindingMatch btn mods k = true
    · simp only [mouseKeyBindingsGo, hmk, if_true]
      exact ih _ _ (by simp [mergeBufCursors, setCursorPrimary, setCursorIdx])
    · simp only [mouseKeyBindingsGo, hmk, if_false]
      exact ih _ _ h0

theorem mouseKeyBindingsGo_nomatch (btn mods : Int) (bs : Bindings)
    (h : ∀ b ∈ bs, mouseBindingMatch btn mods b.1 = false) (v : EView) (rel : Bool) :
    mouseKeyBindingsGo btn mods bs v rel = (v, rel) := by
  induction bs generalizing v rel with
  | nil => rfl
  | cons b rest ih =>
    obtain ⟨k, acts⟩ := b
    have hk := h (k, acts) (List.mem_cons_self _ _)
    simp only [mouseKeyBindingsGo, hk, Bool.false_eq_true, if_false]
    exact ih (fun b hb => h b (List.mem_cons_of_mem _ hb)) v rel

theorem mouseKeyBindingsGo_locs_nodup (btn mods : Int) (bs : Bindings) :
    ∀ (v : EView) (rel : Bool),
      (∃ b ∈ bs, mouseBindingMatch btn mods b.1 = true) →
      ((((mouseKeyBindingsGo btn mods bs v rel).1).buf.cursors).map fun c => c.loc).Nodup := by
  induction bs with
  | nil =>
    intro v rel h
    obtain ⟨b, hb, _⟩ := h
    cases hb
  | cons b rest ih =>
    intro v rel h
    obtain ⟨k, acts⟩ := b
    by_cases hmk : mouseBindingMatch btn mods k = true
    · simp only [mouseKeyBindingsGo, hmk, if_true]
      by_cases hr : ∃ b ∈ rest, mouseBindingMatch btn mods b.1 = true
      · exact ih _ _ hr
      · push_neg at hr
        rw [mouseKeyBindingsGo_nomatch btn mods rest
          (fun b hb => Bool.eq_false_iff.mpr (hr b hb)) _ _]
        simp only [mergeBufCursors, setCursorPrimary, setCursorIdx]
        exact mergeCursors_locs_nodup _
    · simp only [mouseKeyBindingsGo, hmk, if_false]
      refine ih _ _ ?_
      obtain ⟨b, hb, hbm⟩ := h
      rcases List.mem_cons.mp hb with rfl | hb'
      · exact absurd hbm hmk
      · exact ⟨b, hb', hbm⟩

theorem mouseActionsGo_pres (e : Int × Int × Int × Int) (acts : List MAction) :
    ∀ v : EView,
      (∀ a ∈ acts, ∀ (s : EView) (ev : Int × Int × Int × Int),
        (a.act s ev).buf.curCursor = s.buf.curCursor ∧
        (a.act s ev).buf.cursors = s.buf.cursors) →
      ((mouseActionsGo e acts v).buf.curCursor = v.buf.curCursor ∧
        (mouseActionsGo e acts v).buf.cursors = v.buf.cursors) := by
  induction acts with
  | nil => intro v _; exact ⟨rfl, rfl⟩
  | cons a rest ih =>
    intro v h
    have ha := h a (List.mem_cons_self _ _) v e
    obtain ⟨ih1, ih2⟩ := ih (a.act v e) (fun b hb => h b (List.mem_cons_of_mem _ hb))
    exact ⟨ih1.trans ha.1, ih2.trans ha.2⟩

theorem mouseTableGo_pres (btn mods : Int) (e : Int × Int × Int × Int)
    (mbs : MouseBindings) :
    ∀ v : EView,
      (∀ p ∈ mbs, ∀ a ∈ p.2, ∀ (s : EView) (ev : Int × Int × Int × Int),
        (a.act s ev).buf.curCursor = s.buf.curCursor ∧
        (a.act s ev).buf.cursors = s.buf.cursors) →
      ((mouseTableGo btn mods e mbs v).buf.curCursor = v.buf.curCursor ∧
        (mouseTableGo btn mods e mbs v).buf.cursors = v.buf.cursors) := by
  induction mbs with
  | nil => intro v _; exact ⟨rfl, rfl⟩
  | cons p rest ih =>
    intro v h
    obtain ⟨k, acts⟩ := p
    have hrest := fun b hb => h b (List.mem_cons_of_mem _ hb)
    by_cases hmk : mouseBindingMatch btn mods k = true
    · simp only [mouseTableGo, hmk, if_true]
      have hacts := mouseActionsGo_pres e acts v
        (fun a ha => h (k, acts) (List.mem_cons_self _ _) a ha)
      obtain ⟨ih1, ih2⟩ := ih (mouseActionsGo e acts v) hrest
      exact ⟨ih1.trans hacts.1, ih2.trans hacts.2⟩
    · simp only [mouseTableGo, hmk, if_false]
      exact ih v hrest

theorem buttonNoneArm_curCursor (rc : EView → Int → Int → Loc) (x y : Int) (v : EView) :
    (buttonNoneArm rc x y v).buf.curCursor = v.buf.curCursor := by
  unfold buttonNoneArm
  split_ifs <;> rfl

/-- C2 counterexample: the claim fails on the rune-insert path.  On a
writable view with two duplicate cursors at the origin, dispatching a
plain rune key through `HandleEvent` runs the per-cursor insertion
(the mutation log shows one `Insert` per cursor) and resets the active
cursor, but does NOT merge the cursor set: both duplicate cursors
remain (merging would collapse them to one), against the claim that
every dispatch path merges before returning. -/
theorem C2_counterexample :
    (((handleEvent [] [] (fun _ _ _ => ⟨0, 0⟩) (TEvent.key keyRune 'x' 0) Micro.c2cex).1).buf.cursors.map
        fun c => c.loc) = [⟨0, 0⟩, ⟨0, 0⟩] ∧
    ((handleEvent [] [] (fun _ _ _ => ⟨0, 0⟩) (TEvent.key keyRune 'x' 0) Micro.c2cex).1).buf.mutations
      = [BufMutation.insert ⟨0, 0⟩ "x", BufMutation.insert ⟨0, 0⟩ "x"] ∧
    (mergeCursors (((handleEvent [] [] (fun _ _ _ => ⟨0, 0⟩) (TEvent.key keyRune 'x' 0) Micro.c2cex).1).buf.cursors)).length = 1 := by
  decide

/-- C2 (amended): on every dispatch path of `HandleEvent` the active
cursor ends reset to the Buffer's primary cursor — under the stated
discipline that `mouseBindings` handlers do not move the active-cursor
index or the cursor set — and the cursor set is merged (duplicate
cursors collapse, leaving pairwise-distinct locations) on the
key-binding, raw-escape and mouse-binding paths; the rune-insert and
paste paths reset the active cursor but do not merge (see the
counterexample). -/
theorem C2_cursor_reset_and_merge (bindings : Bindings) (mb : MouseBindings)
    (rc : EView → Int → Int → Loc) (ev : TEvent) (v : EView)
    (h0 : v.buf.curCursor = 0)
    (hmb : ∀ p ∈ mb, ∀ a ∈ p.2, ∀ (s : EView) (e : Int × Int × Int × Int),
      (a.act s e).buf.curCursor = s.buf.curCursor ∧
      (a.act s e).buf.cursors = s.buf.cursors) :
    (((handleEvent bindings mb rc ev v).1).buf.curCursor = 0) ∧
    (∀ code r mods, ev = TEvent.key code r mods → v.vtype ≠ vtTerm → v.vtype ≠ vtRaw →
      v.completerTakesKey = false →
      (bindings.find? (keyBindingMatch code r mods)).isSome = true →
      ((((handleEvent bindings mb rc ev v).1).buf.cursors).map fun c => c.loc).Nodup) ∧
    (∀ esc, ev = TEvent.raw esc → v.vtype ≠ vtTerm → v.vtype ≠ vtRaw →
      (bindings.find? (rawBindingMatch esc)).isSome = true →
      ((((handleEvent bindings mb rc ev v).1).buf.cursors).map fun c => c.loc).Nodup) ∧
    (∀ btn mods x y, ev = TEvent.mouse btn mods x y → v.vtype ≠ vtTerm → v.vtype ≠ vtRaw →
      btn ≠ buttonNone →
      (∃ b ∈ bindings, mouseBindingMatch btn mods b.1 = true) →
      ((((handleEvent bindings mb rc ev v).1).buf.cursors).map fun c => c.loc).Nodup) := by
  by_cases hterm : v.vtype = vtTerm
  · refine ⟨by simpa [handleEvent, hterm] using h0, ?_, ?_, ?_⟩
    · intro _ _ _ _ hvt _ _ _
      exact absurd hterm hvt
    · intro _ _ hvt _ _
      exact absurd hterm hvt
    · intro _ _ _ _ _ hvt _ _ _
      exact absurd hterm hvt
  by_cases hraw : v.vtype = vtRaw
  · refine ⟨by simpa [handleEvent, hterm, hraw] using h0, ?_, ?_, ?_⟩
    · intro _ _ _ _ _ hvr _ _
      exact absurd hraw hvr
    · intro _ _ _ hvr _
      exact absurd hraw hvr
    · intro _ _ _ _ _ _ hvr _ _
      exact absurd hraw hvr
  cases ev with
  | key code r mods =>
    refine ⟨?_, ?_, ?_, ?_⟩
    · by_cases hcomp : v.completerTakesKey = true
      · simpa [handleEvent, hterm, hraw, hcomp] using h0
      · simp only [Bool.not_eq_true] at hcomp
        cases hfind : bindings.find? (keyBindingMatch code r mods) with
        | some p =>
          obtain ⟨k, acts⟩ := p
          simp [handleEvent, hterm, hraw, hcomp, hfind, fanOutKey_curCursor]
        | none =>
          by_cases hrune : code = keyRune
          · subst hrune
            by_cases hro : v.vtype.readonly = true
            · simpa [handleEvent, hterm, hraw, hcomp, hfind, hro] using h0
            · simp only [Bool.not_eq_true] at hro
              simp [handleEvent, hterm, hraw, hcomp, hfind, hro,
                setCursorPrimary, setCursorIdx]
          · simpa [handleEvent, hterm, hraw, hcomp, hfind, hrune] using h0
    · intro code' r' mods' heq _ _ hcomp hfind
      cases heq
      rcases hfind' : bindings.find? (keyBindingMatch code r mods) with _ | p
      · rw [hfind'] at hfind
        simp at hfind
      · obtain ⟨k, acts⟩ := p
        simp [handleEvent, hterm, hraw, hcomp, hfind', fanOutKey_locs_nodup]
    · intro esc heq _ _ _
      simp at heq
    · intro btn mods' x y heq _ _ _ _
      simp at heq
  | raw esc =>
    refine ⟨?_, ?_, ?_, ?_⟩
    · cases hfind : bindings.find? (rawBindingMatch esc) with
      | some p =>
        obtain ⟨k, acts⟩ := p
        simp [handleEvent, hterm, hraw, hfind, fanOutKey_curCursor]
      | none => simpa [handleEvent, hterm, hraw, hfind] using h0
    · intro _ _ _ heq _ _ _ _
      simp at heq
    · intro esc' heq _ _ hfind
      cases heq
      rcases hfind' : bindings.find? (rawBindingMatch esc) with _ | p
      · rw [hfind'] at hfind
        simp at hfind
      · obtain ⟨k, acts⟩ := p
        simp [handleEvent, hterm, hraw, hfind', fanOutKey_locs_nodup]
    · intro _ _ _ _ heq _ _ _ _
      simp at heq
  | paste txt =>
    refine ⟨?_, ?_, ?_, ?_⟩
    · by_cases hro : v.vtype.readonly = false
      · by_cases hpre : v.preActionPasteOk = true
        · simp [handleEvent, hterm, hraw, hro, hpre, setCursorPrimary, setCursorIdx]
        · simp only [Bool.not_eq_true] at hpre
          simpa [handleEvent, hterm, hraw, hro, hpre] using h0
      · simpa [handleEvent, hterm, hraw, hro] using h0
    · intro _ _ _ heq _ _ _ _
      simp at heq
    · intro _ heq _ _ _
      simp at heq
    · intro _ _ _ _ heq _ _ _ _
      simp at heq
  | mouse btn mods x y =>
    refine ⟨?_, ?_, ?_, ?_⟩
    · by_cases hbn : btn = buttonNone
      · subst hbn
        have hkey := mouseKeyBindingsGo_curCursor buttonNone mods bindings v false h0
        have htab := (mouseTableGo_pres buttonNone mods (buttonNone, mods, x, y) mb
          ((mouseKeyBindingsGo buttonNone mods bindings v false).1) hmb).1
        simp [handleEvent, hterm, hraw, buttonNoneArm_curCursor, htab, hkey]
      · have hkey := mouseKeyBindingsGo_curCursor btn mods bindings v false h0
        have htab := (mouseTableGo_pres btn mods (btn, mods, x, y) mb
          ((mouseKeyBindingsGo btn mods bindings v false).1) hmb).1
        simp [handleEvent, hterm, hraw, hbn, htab, hkey]
    · intro _ _ _ heq _ _ _ _
      simp at heq
    · intro _ heq _ _ _
      simp at heq
    · intro btn' mods' x' y' heq _ _ hbn hex
      cases heq
      have hnod := mouseKeyBindingsGo_locs_nodup btn mods bindings v false hex
      have htab := (mouseTableGo_pres btn mods (btn, mods, x, y) mb
        ((mouseKeyBindingsGo btn mods bindings v false).1) hmb).2
      simp only [handleEvent, hterm, hraw, if_neg hterm, if_neg hraw, hbn, if_false]
      rw [htab]
      exact hnod
  | other =>
    refine ⟨by simpa [handleEvent, hterm, hraw] using h0, ?_, ?_, ?_⟩
    · intro _ _ _ heq _ _ _ _
      simp at heq
    · intro _ heq _ _ _
      simp at heq
    · intro _ _ _ _ heq _ _ _ _
      simp at heq

/-- C2 witness: a key binding whose action moves the active-cursor
index and adds a cursor still returns with the active cursor reset to
the primary cursor and a merged (duplicate-free) cursor set. -/
theorem C2_witness :
    ((handleEvent Micro.c2bind [] (fun _ _ _ => ⟨0, 0⟩) (TEvent.key 107 'k' 0)
        Micro.c2wit).1).buf.curCursor = 0 ∧
    ((((handleEvent Micro.c2bind [] (fun _ _ _ => ⟨0, 0⟩) (TEvent.key 107 'k' 0)
        Micro.c2wit).1).buf.cursors).map fun c => c.loc).Nodup := by
  have h := C2_cursor_reset_and_merge Micro.c2bind [] (fun _ _ _ => ⟨0, 0⟩)
    (TEvent.key 107 'k' 0) Micro.c2wit rfl (by intro p hp; cases hp)
  exact ⟨h.1, h.2.1 107 'k' 0 rfl (by decide) (by decide) rfl (by decide)⟩

end Dispatch

namespace Sched

theorem loopRun_add (a b : Nat) (s : LoopState) :
    loopRun (a + b) s = loopRun b (loopRun a s) := by
  induction a generalizing s with
  | zero => simp [loopRun]
  | succ a ih =>
    have hn : a + 1 + b = (a + b) + 1 := by omega
    rw [hn]
    show loopRun (a + b) (loopStep s) = _
    rw [ih (loopStep s)]
    rfl

theorem loopStep_select_cons (e : SEvent) (rest : List SEvent) (tr : List LoopAtom)
    (ht : e.tabClick = false) :
    loopStep ⟨e :: rest, tr, .select, false⟩
      = ⟨rest, tr ++ [LoopAtom.dispatch e], .drainPoll, false⟩ := by
  show drainBody ⟨e :: rest, tr, .select, false⟩ e rest = _
  by_cases hw : e.wheelOverView = true <;> simp [drainBody, ht, hw]

theorem loopStep_drain_cons (e : SEvent) (rest : List SEvent) (tr : List LoopAtom)
    (ht : e.tabClick = false) :
    loopStep ⟨e :: rest, tr, .drainPoll, false⟩
      = ⟨rest, tr ++ [LoopAtom.dispatch e], .drainPoll, false⟩ := by
  show drainBody ⟨e :: rest, tr, .drainPoll, false⟩ e rest = _
  by_cases hw : e.wheelOverView = true <;> simp [drainBody, ht, hw]

theorem loopRun_drain (q : List SEvent) :
    ∀ tr : List LoopAtom, (∀ e ∈ q, e.tabClick = false) →
      loopRun q.length ⟨q, tr, .drainPoll, false⟩
        = ⟨[], tr ++ q.map LoopAtom.dispatch, .drainPoll, false⟩ := by
  induction q with
  | nil => intro tr _; simp [loopRun]
  | cons e rest ih =>
    intro tr h
    show loopRun rest.length (loopStep ⟨e :: rest, tr, .drainPoll, false⟩) = _
    rw [loopStep_drain_cons e rest tr (h e (List.mem_cons_self _ _)),
      ih _ (fun e' he' => h e' (List.mem_cons_of_mem _ he'))]
    simp

/-- C6 counterexample: the claim fails when the batch contains a mouse
click the tab bar consumes.  With three immediately-available events
whose middle one is a tab-bar click, `TabbarHandleMouseEvent` returns
true and the `break` ends the drain: the loop falls back to its top
and `RedrawAll` runs before the third event is received — a redraw
lands between two drained events of one batch, and the batch gets two
redraws rather than "exactly one redraw after the whole batch". -/
theorem C6_counterexample :
    loopRun 7 ⟨Micro.c6cexq, [], .top, false⟩
      = ⟨[], [LoopAtom.redraw, LoopAtom.dispatch ⟨0, false, false⟩,
              LoopAtom.tabSwitch ⟨1, false, true⟩, LoopAtom.redraw,
              LoopAtom.dispatch ⟨2, false, false⟩, LoopAtom.redraw], .select, false⟩ := by
  decide

/-- C6 (amended): for any non-empty batch of queued input events, when
the editor is not in search mode and no event of the batch is a mouse
click the tab bar consumes, one pass of the main loop redraws once,
then drains and dispatches the whole batch in order without any
intermediate redraw, and the next redraw happens only after the batch
is exhausted — the run's trace is exactly redraw, all dispatches,
redraw, and the dispatched batch contains no redraw.  (A tab-bar click
ends the drain early, with a redraw before the rest of the batch; in
search mode every event's dispatch brings its own redraw.) -/
theorem C6_event_burst (q : List SEvent) (h : q ≠ [])
    (hnt : ∀ e ∈ q, e.tabClick = false) :
    loopRun (q.length + 3) ⟨q, [], .top, false⟩
      = ⟨[], LoopAtom.redraw :: (q.map LoopAtom.dispatch ++ [LoopAtom.redraw]),
          .select, false⟩ ∧
    (q.map LoopAtom.dispatch).count LoopAtom.redraw = 0 := by
  constructor
  · obtain ⟨e, rest, rfl⟩ : ∃ e rest, q = e :: rest := by
      cases q with
      | nil => exact absurd rfl h
      | cons e rest => exact ⟨e, rest, rfl⟩
    have hsplit : (e :: rest).length + 3 = (2 + rest.length) + 2 := by
      simp
      omega
    rw [hsplit, loopRun_add (2 + rest.length) 2, loopRun_add 2 rest.length]
    have h2 : loopRun 2 ⟨e :: rest, [], .top, false⟩
        = ⟨rest, [LoopAtom.redraw, LoopAtom.dispatch e], .drainPoll, false⟩ := by
      show loopStep (loopStep ⟨e :: rest, [], .top, false⟩) = _
      rw [show loopStep ⟨e :: rest, [], .top, false⟩
          = ⟨e :: rest, [LoopAtom.redraw], .select, false⟩ from rfl]
      rw [loopStep_select_cons e rest [LoopAtom.redraw]
        (hnt e (List.mem_cons_self _ _))]
      simp
    rw [h2, loopRun_drain rest _ (fun e' he' => hnt e' (List.mem_cons_of_mem _ he'))]
    simp [loopRun, loopStep]
  · simp [List.count_eq_zero]

/-- C6 witness: a batch of 50 ordinary events dispatched between
exactly two redraws. -/
theorem C6_witness :
    loopRun (Micro.c6q.length + 3) ⟨Micro.c6q, [], .top, false⟩
      = ⟨[], LoopAtom.redraw :: (Micro.c6q.map LoopAtom.dispatch ++ [LoopAtom.redraw]),
          .select, false⟩ :=
  (C6_event_burst Micro.c6q (by decide) (by decide)).1

end Sched

namespace Config

theorem setOption_cases (vs : List String) (st : ConfigState) (opt value : String) :
    (∃ e, setOption vs st opt value = (st, some e)) ∨
    (setOption vs st opt value).2 = none := by
  unfold setOption
  repeat' split
  all_goals first
    | exact Or.inl ⟨_, rfl⟩
    | exact Or.inr rfl
    | (refine Or.inr ?_; dsimp only; split <;> rfl)

/-- C7: whenever `SetOption` returns an error — unknown option, failed
parse, failed validation — the operation is a no-op: the returned
state (global settings and every buffer's settings) is exactly the
input state, and `SetOptionAndSettings` only appends the error as a
transient message, performing no settings-file write. -/
theorem C7_setoption_error_noop (vs : List String) (env : FileEnv) (st : ConfigState)
    (opt value e : String) (h : (setOption vs st opt value).2 = some e) :
    (setOption vs st opt value).1 = st ∧
    setOptionAndSettings vs env st opt value
      = { st with messages := st.messages ++ [e] } := by
  rcases setOption_cases vs st opt value with ⟨e', he⟩ | hnone
  · have he' : e' = e := by
      rw [he] at h
      simpa using h
    subst he'
    exact ⟨by rw [he], by simp [setOptionAndSettings, he]⟩
  · rw [h] at hnone
    cases hnone

/-- C7 witness: setting `tabsize` to "0" fails validation, leaves the
state untouched and only reports the error. -/
theorem C7_witness :
    (setOption [] Micro.c7wit "tabsize" "0").1 = Micro.c7wit ∧
    setOptionAndSettings [] Micro.c7env Micro.c7wit "tabsize" "0"
      = { Micro.c7wit with
          messages := Micro.c7wit.messages ++ ["tabsize must be greater than 0"] } :=
  C7_setoption_error_noop [] Micro.c7env Micro.c7wit "tabsize" "0"
    "tabsize must be greater than 0" (by decide)

/-- C8: if `settings.json` exists, is not the "null" placeholder, and
reading or parsing it fails, `InitGlobalSettings` leaves the
process-wide `invalidSettings` flag set; and while that flag is set,
any `WriteSettings` call returns immediately with no error and no
write, so a corrupt settings file is never clobbered. -/
theorem C8_invalid_settings_suppresses_writes (env : FileEnv)
    (inp : SettingsFileInput) (st st' : ConfigState)
    (hex : inp.fileExists = true) (hnn : inp.startsNull = false)
    (hfail : inp.readOk = false ∨ inp.parseOk = false)
    (hinv : st'.invalidSettings = true) :
    (initGlobalSettings env inp st).invalidSettings = true ∧
    writeSettingsR env st' = (st', none) := by
  constructor
  · rcases hfail with hr | hp
    · simp [initGlobalSettings, hex, hnn, hr]
    · by_cases hr : inp.readOk = true
      · simp [initGlobalSettings, hex, hnn, hr, hp]
      · simp only [Bool.not_eq_true] at hr
        simp [initGlobalSettings, hex, hnn, hr]
  · simp [writeSettingsR, hinv]

/-- C8 witness: a parse failure sets the flag, and a flagged state
suppresses the write. -/
theorem C8_witness :
    (initGlobalSettings Micro.c8env Micro.c8inp Micro.c8st).invalidSettings = true ∧
    writeSettingsR Micro.c8env Micro.c8stInvalid = (Micro.c8stInvalid, none) :=
  C8_invalid_settings_suppresses_writes Micro.c8env Micro.c8inp Micro.c8st
    Micro.c8stInvalid rfl rfl (Or.inr rfl) rfl

end Config

end Micro
